import Mathlib

/-!
Verification of the mpython compiler's instruction model, peephole optimizer,
assembly writers, locals discovery and builtin lowering, embedded shallowly
from the Python sources (`masm.py`, `optimize.py`, `writer.py`, `mpython.py`,
`_builtins.py`).
-/

set_option autoImplicit false

deriving instance DecidableEq for Except

/-- An instruction/data operand as passed around by the Python sources:
either a Python `int` or a Python `str`.  (`masm.Code` stores its `args`
tuple unchanged; every argument the compiler constructs is one of these.) -/
inductive Arg where
  | imm (n : Int)
  | str (s : String)
  deriving DecidableEq

instance : Inhabited Arg := ⟨.str ""⟩

/-- The Python class of an instruction object, as far as the program ever
inspects it.  `optimize.optimize_single_ins` dispatches with `isinstance`
on `masm.Mov`, `masm.Add`, `masm.Sub` (and the undefined `masm.Imul`); no
other class identity is ever tested, so the remaining `masm.Code`
subclasses keep their own tags only where a claim mentions them, and
`.code` stands for `masm.Code` itself and every other subclass. -/
inductive Cls where
  | mov | push | pop | add | sub | inc | dec | xor | code
  deriving DecidableEq

/-- A constructed `masm.Code` object: its class, its `op` string and its
`args` tuple (`masm.py:72-79`). -/
structure Ins where
  cls : Cls
  op : String
  args : List Arg
  deriving DecidableEq

instance : Inhabited Ins := ⟨⟨.code, "", []⟩⟩

/-- `ins.args[0]` (sequences the optimizer touches always have it). -/
def arg0 (i : Ins) : Arg := i.args.getD 0 default

/-- `ins.args[1]` (two-operand instructions always have it). -/
def arg1 (i : Ins) : Arg := i.args.getD 1 default

/-- `masm.py:120-123`: `Mov.__init__` rewrites a string source that starts
with `[` into `'ds:' + src` (the source also asserts that such a string
ends with `]`; every bracketed operand the program builds does). -/
def canonMovSrc : Arg → Arg
  | .str s => if s.data.head? = some '[' then .str ("ds:" ++ s) else .str s
  | a => a

namespace masm

/-- `masm.py:99-124` `Mov(dst, src)`. -/
def Mov (dst src : Arg) : Ins := ⟨.mov, "mov", [dst, canonMovSrc src]⟩

/-- `masm.py:128-138` `Push(src)`. -/
def Push (src : Arg) : Ins := ⟨.push, "push", [src]⟩

/-- `masm.py:141-151` `Pop(dst)`. -/
def Pop (dst : Arg) : Ins := ⟨.pop, "pop", [dst]⟩

/-- `masm.py:158-171` `Add(dst, src)`. -/
def Add (dst src : Arg) : Ins := ⟨.add, "add", [dst, src]⟩

/-- `masm.py:186-199` `Sub(dst, src)`. -/
def Sub (dst src : Arg) : Ins := ⟨.sub, "sub", [dst, src]⟩

/-- `masm.py:174-183` `Inc(opr)`. -/
def Inc (opr : Arg) : Ins := ⟨.inc, "inc", [opr]⟩

/-- `masm.py:202-211` `Dec(opr)`. -/
def Dec (opr : Arg) : Ins := ⟨.dec, "dec", [opr]⟩

/-- `masm.py:303-316` `Xor(dst, src)`. -/
def Xor (dst src : Arg) : Ins := ⟨.xor, "xor", [dst, src]⟩

/-- `masm.py:518-527` `Int(n)`; its class is never `isinstance`-tested. -/
def Int (n : Arg) : Ins := ⟨.code, "int", [n]⟩

end masm

/-- `Code._str` / `Code.__str__` (`masm.py:83-92`): the op, then the
comma-separated `str()` of each argument (Python renders ints in
decimal, with a leading minus for negatives, exactly as `toString`). -/
def renderArg : Arg → String
  | .imm n => toString n
  | .str s => s

/-- Rendering of a whole instruction, `masm.py:83-92`. -/
def renderIns (i : Ins) : String :=
  if i.args.isEmpty then i.op
  else i.op ++ " " ++ String.intercalate ", " (i.args.map renderArg)

/-- An instruction as actually constructible by the Python classes: each
named `masm` subclass fixes its own `op` string in `__init__`, while raw
`masm.Code` takes any op. -/
def Ins.wf (i : Ins) : Bool :=
  match i.cls with
  | .mov => i.op = "mov"
  | .push => i.op = "push"
  | .pop => i.op = "pop"
  | .add => i.op = "add"
  | .sub => i.op = "sub"
  | .inc => i.op = "inc"
  | .dec => i.op = "dec"
  | .xor => i.op = "xor"
  | .code => true

/-- `optimize.py:31-40` `combine()`: with `mid = len(optimized) - pops`
and `num = min(pushes, pops)`, pair the push at `mid - i - 1` with the
pop at `mid + i`, keep a `Mov(pop_arg, push_arg)` only when the operands
differ, and splice the movs over `optimized[mid-num : mid+num]`.
(The state machine guarantees `mid ≥ pushes` and the indexed elements
exist, so `getD`/truncated subtraction agree with Python's indexing.) -/
def combine (optimized : List Ins) (pushes pops : Nat) : List Ins :=
  let mid := optimized.length - pops
  let num := min pushes pops
  let masm_moves := (List.range num).filterMap (fun i =>
    let pop_arg := arg0 (optimized.getD (mid + i) default)
    let push_arg := arg0 (optimized.getD (mid - i - 1) default)
    if push_arg ≠ pop_arg then some (masm.Mov pop_arg push_arg) else none)
  optimized.take (mid - num) ++ masm_moves ++ optimized.drop (mid + num)

/-- The three states of `optimize.py:3-5`. -/
inductive OptState where
  | state_default | state_push | state_pop
  deriving DecidableEq

/-- The scanning loop of `optimize.optimize_pushes_pops` (`optimize.py:49-80`),
with the mutable `optimized`/`state`/`pushes`/`pops` made explicit; the
final `if state == _STATE_POP: combine()` is the nil case. -/
def oppLoop : List Ins → List Ins → OptState → Nat → Nat → List Ins
  | [], optimized, st, pushes, pops =>
      if st = .state_pop then combine optimized pushes pops else optimized
  | ins :: rest, optimized, st, pushes, pops =>
      match st with
      | .state_default =>
          if ins.op = "push" then
            oppLoop rest (optimized ++ [ins]) .state_push (pushes + 1) pops
          else
            oppLoop rest (optimized ++ [ins]) .state_default 0 0
      | .state_push =>
          if ins.op = "push" then
            oppLoop rest (optimized ++ [ins]) .state_push (pushes + 1) pops
          else if ins.op = "pop" then
            oppLoop rest (optimized ++ [ins]) .state_pop pushes (pops + 1)
          else
            oppLoop rest (optimized ++ [ins]) .state_default 0 0
      | .state_pop =>
          if ins.op = "pop" then
            oppLoop rest (optimized ++ [ins]) .state_pop pushes (pops + 1)
          else
            let optimized := combine optimized pushes pops
            if ins.op = "push" then
              oppLoop rest (optimized ++ [ins]) .state_push 1 0
            else
              oppLoop rest (optimized ++ [ins]) .state_default 0 0

/-- `optimize.optimize_pushes_pops` (`optimize.py:8-82`), pass 1. -/
def optimize_pushes_pops (codes : List Ins) : List Ins :=
  oppLoop codes [] .state_default 0 0

/-- The `AttributeError` raised by `optimize.py:103`: the `elif` chain
evaluates `masm.Imul`, and `masm.py` defines no class `Imul`. -/
def imulAttrError : String := "module masm has no attribute Imul"

/-- `optimize.optimize_single_ins` (`optimize.py:85-105`), pass 2 on one
instruction.  The `isinstance` chain tests `Mov`, `Add`, `Sub`; any other
instruction reaches `isinstance(ins, masm.Imul)` and raises
`AttributeError` because `masm.Imul` does not exist. -/
def optimize_single_ins (ins : Ins) : Except String (Option Ins) :=
  if ins.cls = .mov then
    if arg1 ins = .imm 0 then .ok (some (masm.Xor (arg0 ins) (arg0 ins)))
    else .ok (some ins)
  else if ins.cls = .add then
    if arg1 ins = .imm 1 then .ok (some (masm.Inc (arg0 ins)))
    else if arg1 ins = .imm 0 then .ok none
    else if arg1 ins = .imm (-1) then .ok (some (masm.Dec (arg0 ins)))
    else .ok (some ins)
  else if ins.cls = .sub then
    if arg1 ins = .imm 1 then .ok (some (masm.Dec (arg0 ins)))
    else if arg1 ins = .imm 0 then .ok none
    else if arg1 ins = .imm (-1) then .ok (some (masm.Inc (arg0 ins)))
    else .ok (some ins)
  else .error imulAttrError

/-- `optimize.optimize_single_ins_of_batch` (`optimize.py:108-112`) as
forced by `list(...)`: yields each truthy result in order, propagating
the first raised exception. -/
def optimize_single_ins_of_batch : List Ins → Except String (List Ins)
  | [] => .ok []
  | ins :: rest =>
    match optimize_single_ins ins with
    | .error e => .error e
    | .ok none => optimize_single_ins_of_batch rest
    | .ok (some j) =>
      match optimize_single_ins_of_batch rest with
      | .error e => .error e
      | .ok l => .ok (j :: l)

/-- `optimize.optimize_batch` (`optimize.py:115-118`): pass 1 then pass 2. -/
def optimize_batch (batch : List Ins) : Except String (List Ins) :=
  optimize_single_ins_of_batch (optimize_pushes_pops batch)

/-! ### The two writers (`masm.MASM` and `writer.MasmWriter`) -/

/-- The observable state of a `masm.MASM` object (`masm.py:5-18`): the
lines written to the output file so far and the buffered batch.  Note
that `MASM.add_code` (`masm.py:39-40`) stores `str(code)`, so the batch
holds already-rendered strings. -/
structure MASMState where
  out : List String
  batch : List String
  deriving DecidableEq

namespace MASM

/-- `masm.py:6` `TAB = ' ' * 4`. -/
def TAB : String := "    "

/-- `MASM.add_code` (`masm.py:39-40`): append `str(code)` to the batch. -/
def add_code (st : MASMState) (code : Ins) : MASMState :=
  { st with batch := st.batch ++ [renderIns code] }

/-- `MASM.flush` (`masm.py:15-18`): print each buffered string indented
by `TAB` and clear the batch.  No optimizer is involved. -/
def flush (st : MASMState) : MASMState :=
  { out := st.out ++ st.batch.map (fun s => TAB ++ s), batch := [] }

/-- `MASM.add_label` (`masm.py:35-37`): flush, then print the label line. -/
def add_label (st : MASMState) (label : String) : MASMState :=
  let st := flush st
  { st with out := st.out ++ [label ++ ":"] }

/-- `MASM.add_segment_footer` (`masm.py:27-30`): flush, print the `ends`
line, then a blank line. -/
def add_segment_footer (st : MASMState) (name : String) : MASMState :=
  let st := flush st
  { st with out := st.out ++ [name ++ " ends", ""] }

end MASM

/-- `mpython.py:65-66`: `Compiler.__init__` sets `self.asm =
masm.MASM(output_file)`, so the flush the compiler's writer performs is
`MASM.flush`. -/
def Compiler.writerFlush : MASMState → MASMState := MASM.flush

/-- The observable state of a `writer.MasmWriter` (`writer.py:7-25`):
output lines, the `optimize` flag, and the batch of instruction
*objects* (`writer.py:46-47` appends the object itself). -/
structure MasmWriterState where
  out : List String
  optimize : Bool
  batch : List Ins
  deriving DecidableEq

namespace MasmWriter

/-- `writer.py:8` `TAB = ' ' * 4`. -/
def TAB : String := "    "

/-- `MasmWriter.add_code` (`writer.py:46-47`). -/
def add_code (st : MasmWriterState) (code : Ins) : MasmWriterState :=
  { st with batch := st.batch ++ [code] }

/-- `MasmWriter.flush` (`writer.py:19-25`): when `optimize` is set, run
the batch through `optimize_batch` (which can raise, see
`imulAttrError`), then print each instruction indented by `TAB` and
clear the batch. -/
def flush (st : MasmWriterState) : Except String MasmWriterState := do
  let b ← if st.optimize then optimize_batch st.batch else pure st.batch
  pure { st with out := st.out ++ b.map (fun i => TAB ++ renderIns i), batch := [] }

/-- `MasmWriter.add_label` (`writer.py:42-44`). -/
def add_label (st : MasmWriterState) (label : String) : Except String MasmWriterState := do
  let st ← flush st
  pure { st with out := st.out ++ [label ++ ":"] }

/-- `MasmWriter.add_segment_footer` (`writer.py:34-37`). -/
def add_segment_footer (st : MasmWriterState) (name : String) : Except String MasmWriterState := do
  let st ← flush st
  pure { st with out := st.out ++ [name ++ " ends", ""] }

end MasmWriter

/-! ### Instruction-model construction checks (`masm.Code`, `masm.Data`) -/

/-- The check `Code.__init__` runs on one argument (`masm.py:74-76`):
`assert arg <= 0xffff` for `int` arguments, nothing for strings.
There is no lower bound. -/
def codeArgOk : Arg → Bool
  | .imm n => n ≤ 0xffff
  | .str _ => true

/-- All-argument form of the `Code.__init__` check. -/
def codeArgsOk (args : List Arg) : Bool := args.all codeArgOk

/-- The check `Data.__init__` runs on one argument (`masm.py:55-57`):
`assert arg <= 0xff` for `int` arguments.  There is no lower bound. -/
def dataArgOk : Arg → Bool
  | .imm n => n ≤ 0xff
  | .str _ => true

/-- All-argument form of the `Data.__init__` check. -/
def dataArgsOk (args : List Arg) : Bool := args.all dataArgOk

/-! ### String-literal expressions (`mpython.py` `visit_Str`) -/

/-- `Compiler.visit_Str` (`mpython.py:251-257`) together with the
superclass fallback `BaseVisitor.visit_Str` (`mpython.py:50-51`): a
length-1 string is lowered as the integer literal `ord(c)` (appending
`mov ax, n; push ax`, `mpython.py:246-249`); any other string falls to
the base class, which prints `Consumed string <s>` to stdout, emits no
instruction, and raises nothing.  The result is the appended
instructions paired with the console lines; the `Except` layer records
that no exception escapes this handler. -/
def visit_Str (s : String) : Except String (List Ins × List String) :=
  if s.length = 1 then
    .ok ([masm.Mov (.str "ax") (.imm ((s.data.headD default).toNat : Int)),
          masm.Push (.str "ax")], [])
  else
    .ok ([], ["Consumed string " ++ s])

/-! ### Locals discovery (`mpython.py` `LocalsVisitor`) and frame offsets -/

/-- The expression shapes the locals pass can meet; `LocalsVisitor`
never collects anything from inside an expression (it has no expression
visitors, and `visit_Assign` skips `node.value`, `mpython.py:33`). -/
inductive PyExpr where
  | num (n : Int)
  | name (s : String)
  | other
  deriving DecidableEq

/-- The statement shapes of the accepted AST subset that can occur in a
function body (see `mpython.py` visitors and spec section 6). -/
inductive Stmt where
  | assign (target : String) (value : PyExpr)
  | augAssign (target : String) (value : PyExpr)
  | forS (target : String) (body : List Stmt) (orelse : List Stmt)
  | ifS (test : PyExpr) (body : List Stmt) (orelse : List Stmt)
  | whileS (test : PyExpr) (body : List Stmt) (orelse : List Stmt)
  | ret (value : Option PyExpr)
  | exprS (e : PyExpr)
  | breakS
  | continueS

mutual

/-- The names `LocalsVisitor` (`mpython.py:14-41`) adds while visiting
one statement, as the Python `set` it accumulates (`self._local_names =
set()`, `mpython.py:21` — an *unordered* set):
`visit_Assign` adds the single target (`mpython.py:31-35`);
`visit_For` adds the loop target and recurses into the body only
(`mpython.py:37-41`, skipping `orelse` and `iter`);
`If`/`While` have no visitor, so `ast.NodeVisitor.generic_visit`
recurses into all their child statements; every other statement
contributes nothing (its children contain no `Assign`/`For`). -/
def lvStmt : Stmt → Finset String
  | .assign t _ => {t}
  | .forS t body _ => insert t (lvBody body)
  | .ifS _ body orelse => lvBody body ∪ lvBody orelse
  | .whileS _ body orelse => lvBody body ∪ lvBody orelse
  | _ => ∅

/-- `LocalsVisitor` over a list of statements. -/
def lvBody : List Stmt → Finset String
  | [] => ∅
  | s :: rest => lvStmt s ∪ lvBody rest

end

/-- `mpython.py:142-143`: `self._locals =
list(LocalsVisitor(node).collect() - set(self._func_args))`.  The value
is a Python *set* difference; the `list(...)` call enumerates it in
hash-table order, which this embedding cannot and does not fix. -/
def localsSet (funcArgs : List String) (body : List Stmt) : Finset String :=
  lvBody body \ funcArgs.toFinset

/-- `Compiler._local_offset` (`mpython.py:224-231`): argument *i* gets
`2 * (i + 2)`; the local at position *j* of the materialized locals
list gets `2 * (-(j + 1))`; an unknown name is an assertion failure
(`none`). -/
def local_offset (funcArgs localsList : List String) (v : String) : Option Int :=
  match funcArgs.findIdx? (· = v) with
  | some i => some (2 * ((i : Int) + 2))
  | none =>
    match localsList.findIdx? (· = v) with
    | some j => some (2 * (-((j : Int) + 1)))
    | none => none

/-! ### `putchar` lowering (`_builtins.py`) -/

/-- The instruction sequence `BuiltinsMixin._putchar`
(`_builtins.py:7-15`) appends for a `Name` argument, *given* the frame
offset — in the source the offset comes from `self.local_offset(...)`
(`_builtins.py:9`), a method that no class in the program defines (the
compiler only defines `_local_offset`), so in Python this line raises
`AttributeError` before any of the following appends run.  The operand
is formatted as `'[bp+' + str(offset) + ']'` and then canonicalized by
`Mov`. -/
def putchar_codes (offset : Int) : List Ins :=
  [ masm.Mov (.str "ax") (.str ("[bp+" ++ toString offset ++ "]")),
    masm.Mov (.str "dl") (.str "al"),
    masm.Mov (.str "ah") (.imm 2),
    masm.Int (.imm 0x21) ]

/-! ### Claim theorems -/

/-- C1 (counterexample): the writer the compiler constructs is
`masm.MASM` (`mpython.py:66`), and its flush does *not* run the peephole
optimizer: flushing the batch holding `mov ax, 0` prints it verbatim,
while the optimizing `MasmWriter.flush` would print `xor ax, ax`. -/
theorem c1_masm_flush_counterexample :
    (Compiler.writerFlush ⟨[], [renderIns (masm.Mov (Arg.str "ax") (Arg.imm 0))]⟩).out
      = ["    mov ax, 0"] ∧
    MasmWriter.flush ⟨[], true, [masm.Mov (Arg.str "ax") (Arg.imm 0)]⟩
      = Except.ok ⟨["    xor ax, ax"], true, []⟩ ∧
    ("    mov ax, 0" : String) ≠ "    xor ax, ax" := by
  decide

/-- C1 (amended): `writer.MasmWriter.flush` runs the buffered batch
through `optimize_batch` before printing, indents four spaces and clears
the buffer, and `MASM.add_label`/`MASM.add_segment_footer` flush — but
the writer the compiler actually uses, `masm.MASM`, prints its buffered
(already stringified) batch indented four spaces and clears it *without*
optimizing. -/
theorem c1_flush_amended (st : MASMState) (out : List String) (batch b : List Ins)
    (label : String) (h : optimize_batch batch = Except.ok b) :
    Compiler.writerFlush st = ⟨st.out ++ st.batch.map (fun s => MASM.TAB ++ s), []⟩ ∧
    MASM.add_label st label
      = ⟨(st.out ++ st.batch.map (fun s => MASM.TAB ++ s)) ++ [label ++ ":"], []⟩ ∧
    MASM.add_segment_footer st label
      = ⟨(st.out ++ st.batch.map (fun s => MASM.TAB ++ s)) ++ [label ++ " ends", ""], []⟩ ∧
    MasmWriter.flush ⟨out, true, batch⟩
      = Except.ok ⟨out ++ b.map (fun i => MasmWriter.TAB ++ renderIns i), true, []⟩ := by
  refine ⟨rfl, rfl, rfl, ?_⟩
  simp only [MasmWriter.flush, if_true]
  rw [h]
  rfl

/-- C1 (witness): the amended statement at a one-instruction batch. -/
theorem c1_flush_amended_witness :
    Compiler.writerFlush ⟨[], ["nop"]⟩ = ⟨["    nop"], []⟩ ∧
    MASM.add_label ⟨[], ["nop"]⟩ "main" = ⟨["    nop", "main:"], []⟩ ∧
    MASM.add_segment_footer ⟨[], ["nop"]⟩ "main" = ⟨["    nop", "main ends", ""], []⟩ ∧
    MasmWriter.flush ⟨[], true, [masm.Mov (Arg.str "ax") (Arg.imm 0)]⟩
      = Except.ok ⟨["    xor ax, ax"], true, []⟩ :=
  c1_flush_amended ⟨[], ["nop"]⟩ [] [masm.Mov (Arg.str "ax") (Arg.imm 0)]
    [masm.Xor (Arg.str "ax") (Arg.str "ax")] "main" (by decide)

/-- C2 (counterexample): on the S5 batch, pass 1 renders the second
instruction as `mov ax, ds:[bp+4]` (the `Mov` constructor prefixes `ds:`
to the bare bracketed push source), not `mov ax, [bp+4]` as claimed. -/
theorem c2_s5_counterexample :
    (optimize_pushes_pops
      [masm.Push (Arg.str "[bp+4]"), masm.Push (Arg.imm 42),
       masm.Pop (Arg.str "ax"), masm.Pop (Arg.str "ax")]).map renderIns
      = ["mov ax, 42", "mov ax, ds:[bp+4]"] ∧
    (["mov ax, 42", "mov ax, ds:[bp+4]"] : List String)
      ≠ ["mov ax, 42", "mov ax, [bp+4]"] := by
  decide

/-- C2 (amended): pass 1 turns the S5 batch into `mov ax, 42` followed by
`mov ax, ds:[bp+4]` (reverse pairing as claimed, with the `ds:`
canonicalization); a pair with equal push source and pop destination
emits no mov, and unpaired outer pushes or pops survive unchanged. -/
theorem c2_s5_amended :
    optimize_pushes_pops
      [masm.Push (Arg.str "[bp+4]"), masm.Push (Arg.imm 42),
       masm.Pop (Arg.str "ax"), masm.Pop (Arg.str "ax")]
      = [masm.Mov (Arg.str "ax") (Arg.imm 42), masm.Mov (Arg.str "ax") (Arg.str "[bp+4]")] ∧
    (optimize_pushes_pops
      [masm.Push (Arg.str "[bp+4]"), masm.Push (Arg.imm 42),
       masm.Pop (Arg.str "ax"), masm.Pop (Arg.str "ax")]).map renderIns
      = ["mov ax, 42", "mov ax, ds:[bp+4]"] ∧
    optimize_pushes_pops
      [masm.Push (Arg.str "bx"), masm.Push (Arg.str "ax"), masm.Pop (Arg.str "ax")]
      = [masm.Push (Arg.str "bx")] ∧
    optimize_pushes_pops
      [masm.Push (Arg.str "ax"), masm.Pop (Arg.str "bx"), masm.Pop (Arg.str "cx")]
      = [masm.Mov (Arg.str "bx") (Arg.str "ax"), masm.Pop (Arg.str "cx")] := by
  decide

/-- C3 (counterexample): the optimizer is not idempotent.  One run turns
`mov ax, 0` into `xor ax, ax`; running the optimizer on that output
raises `AttributeError` (pass 2's `isinstance` chain evaluates the
undefined `masm.Imul` for any instruction that is not a
`Mov`/`Add`/`Sub`). -/
theorem c3_idempotence_counterexample :
    optimize_batch [masm.Mov (Arg.str "ax") (Arg.imm 0)]
      = Except.ok [masm.Xor (Arg.str "ax") (Arg.str "ax")] ∧
    optimize_batch [masm.Xor (Arg.str "ax") (Arg.str "ax")]
      = Except.error imulAttrError := by
  decide

/-- C4: evaluating the locals pass at the failing input: the result is a
`Finset` — the collected names are exactly the assignment targets and
for-targets minus parameters, but the Python `set` the source builds
carries no first-appearance order for `list(...)` to expose. -/
theorem c4_locals_set_eval :
    localsSet [] [Stmt.assign "x" (PyExpr.num 1), Stmt.assign "y" (PyExpr.num 2)]
      = ({"x", "y"} : Finset String) ∧
    localsSet ["a"]
      [Stmt.assign "a" (PyExpr.num 1),
       Stmt.forS "i" [Stmt.assign "z" (PyExpr.num 2)] []]
      = ({"i", "z"} : Finset String) := by
  decide

/-- C5: the emitted frame offsets depend on the order in which
`list(...)` happens to enumerate the locals *set*: the same two-element
set materialized as `["a", "b"]` or as `["b", "a"]` gives `a` offset
`-2` in one compilation and `-4` in the other, changing the assembly
bytes. -/
theorem c5_offset_order_dependence :
    local_offset [] ["a", "b"] "a" = some (-2) ∧
    local_offset [] ["b", "a"] "a" = some (-4) ∧
    (["a", "b"] : List String).toFinset = (["b", "a"] : List String).toFinset := by
  decide

/-- C6: the sequence `_putchar` would append for a local at offset `-2`
(had its `self.local_offset` call resolved) renders its first
instruction as `mov ax, ds:[bp+-2]` — the `'[bp+' + str(offset)`
formatting plus the `ds:` canonicalization — not `mov ax, [bp-2]`. -/
theorem c6_putchar_render :
    (putchar_codes (-2)).map renderIns
      = ["mov ax, ds:[bp+-2]", "mov dl, al", "mov ah, 2", "int 33"] ∧
    ("mov ax, ds:[bp+-2]" : String) ≠ "mov ax, [bp-2]" := by
  decide

/-- C7 (counterexample): `-1` lies outside `0..=0xFFFF` (and outside
`0..=0xFF`), yet both constructors accept it — the asserts check only
the upper bound. -/
theorem c7_immediate_counterexample :
    codeArgsOk [Arg.imm (-1)] = true ∧
    dataArgsOk [Arg.imm (-1)] = true ∧
    ¬((0 : Int) ≤ -1) := by
  decide

/-- C7 (amended): construction is accepted iff every integer argument is
at most `0xFFFF` (code) resp. `0xFF` (data); there is no lower bound, so
negative immediates are accepted. -/
theorem c7_immediate_amended (args : List Arg) :
    (codeArgsOk args = true ↔ ∀ n : Int, Arg.imm n ∈ args → n ≤ 0xffff) ∧
    (dataArgsOk args = true ↔ ∀ n : Int, Arg.imm n ∈ args → n ≤ 0xff) := by
  constructor
  · simp only [codeArgsOk, List.all_eq_true]
    constructor
    · intro h n hn
      simpa [codeArgOk] using h _ hn
    · intro h a ha
      cases a with
      | imm n => simpa [codeArgOk] using h n ha
      | str s => simp [codeArgOk]
  · simp only [dataArgsOk, List.all_eq_true]
    constructor
    · intro h n hn
      simpa [dataArgOk] using h _ hn
    · intro h a ha
      cases a with
      | imm n => simpa [dataArgOk] using h n ha
      | str s => simp [dataArgOk]

/-- C7 (witness): in-range immediates are accepted, via the amended
characterization at `42`. -/
theorem c7_immediate_amended_witness :
    codeArgsOk [Arg.imm 42] = true ∧ dataArgsOk [Arg.imm 42] = true := by
  refine ⟨((c7_immediate_amended [Arg.imm 42]).1).mpr ?_,
          ((c7_immediate_amended [Arg.imm 42]).2).mpr ?_⟩ <;>
  · intro n hn
    have h : n = 42 := by simpa using hn
    simp [h]

/-- C8 (counterexample): a mov whose *destination* is a bare bracketed
operand renders without any `ds:` prefix. -/
theorem c8_mov_ds_counterexample :
    renderIns (masm.Mov (Arg.str "[bp-2]") (Arg.str "ax")) = "mov [bp-2], ax" ∧
    ("mov [bp-2], ax" : String) ≠ "mov ds:[bp-2], ax" := by
  decide

/-- C8 (amended): only the *source* operand is canonicalized: a string
source starting with `[` is stored as `ds:` + source, while the
destination — bracketed or not — is stored unchanged. -/
theorem c8_mov_ds_amended (dst : Arg) (s : String) (h : s.data.head? = some '[') :
    masm.Mov dst (Arg.str s) = ⟨Cls.mov, "mov", [dst, Arg.str ("ds:" ++ s)]⟩ := by
  simp [masm.Mov, canonMovSrc, h]

/-- C8 (witness): the amended statement with a bracketed destination and
a bracketed source: `ds:` lands on the source only. -/
theorem c8_mov_ds_amended_witness :
    masm.Mov (Arg.str "[bp-4]") (Arg.str "[bp+4]")
      = ⟨Cls.mov, "mov", [Arg.str "[bp-4]", Arg.str "ds:[bp+4]"]⟩ :=
  c8_mov_ds_amended (Arg.str "[bp-4]") "[bp+4]" (by decide)

/-- C9 (counterexample): a two-character string outside `print` is not
an error: `visit_Str` falls back to the base class, which prints a
console diagnostic, emits no instruction, and raises nothing. -/
theorem c9_long_string_counterexample :
    visit_Str "ab" = Except.ok ([], ["Consumed string ab"]) ∧
    ("ab".length ≠ 1) := by
  decide

/-- C9 (amended): for every string of length ≠ 1 outside `print`,
compilation does not fail; the handler emits no code and prints
`Consumed string <s>` to stdout (the expression is silently skipped). -/
theorem c9_long_string_amended (s : String) (h : s.length ≠ 1) :
    visit_Str s = Except.ok ([], ["Consumed string " ++ s]) := by
  simp [visit_Str, h]

/-- C9 (witness): the amended statement at `"hi"`. -/
theorem c9_long_string_amended_witness :
    visit_Str "hi" = Except.ok ([], ["Consumed string hi"]) :=
  c9_long_string_amended "hi" (by decide)

/-- C10 (confirmed): pass 2 rewrites `mov D, 0` to `xor D, D` for every
destination operand `D`, registers and memory alike; in particular a
batch holding `mov [bp-2], 0` becomes `xor [bp-2], [bp-2]`. -/
theorem c10_mov_zero_xor :
    (∀ d : Arg, optimize_single_ins (masm.Mov d (Arg.imm 0))
        = Except.ok (some (masm.Xor d d))) ∧
    optimize_single_ins_of_batch [masm.Mov (Arg.str "[bp-2]") (Arg.imm 0)]
      = Except.ok [masm.Xor (Arg.str "[bp-2]") (Arg.str "[bp-2]")] ∧
    renderIns (masm.Xor (Arg.str "[bp-2]") (Arg.str "[bp-2]"))
      = "xor [bp-2], [bp-2]" := by
  refine ⟨?_, by decide, by decide⟩
  intro d
  simp [optimize_single_ins, masm.Mov, masm.Xor, canonMovSrc, arg0, arg1]

/-! ### C3 support: behaviour of a successful second optimizer run -/

/-- Pass 2 raises the `masm.Imul` `AttributeError` on an `Xor`. -/
theorem osi_xor_err (x y : Arg) :
    optimize_single_ins (masm.Xor x y) = .error imulAttrError := by
  simp [optimize_single_ins, masm.Xor]

/-- Pass 2 raises the `masm.Imul` `AttributeError` on an `Inc`. -/
theorem osi_inc_err (x : Arg) :
    optimize_single_ins (masm.Inc x) = .error imulAttrError := by
  simp [optimize_single_ins, masm.Inc]

/-- Pass 2 raises the `masm.Imul` `AttributeError` on a `Dec`. -/
theorem osi_dec_err (x : Arg) :
    optimize_single_ins (masm.Dec x) = .error imulAttrError := by
  simp [optimize_single_ins, masm.Dec]

/-- Every instruction pass 2 keeps is, on a second visit, either kept
unchanged or rejected with the `masm.Imul` `AttributeError`; and it is
never a push. -/
theorem osi_step (i j : Ins) (hwf : i.wf = true)
    (h : optimize_single_ins i = .ok (some j)) :
    j.op ≠ "push" ∧
    (optimize_single_ins j = .ok (some j) ∨
      optimize_single_ins j = .error imulAttrError) := by
  unfold optimize_single_ins at h
  split_ifs at h with h1 h2 h3 h4 h5 h6 h7 h8 h9 h10
  · injection h with h; injection h with h
    subst h
    exact ⟨by simp [masm.Xor], Or.inr (osi_xor_err _ _)⟩
  · injection h with h; injection h with h
    subst h
    have hop : i.op = "mov" := by simpa [Ins.wf, h1] using hwf
    exact ⟨by simp [hop], Or.inl (by simp [optimize_single_ins, h1, h2])⟩
  · injection h with h; injection h with h
    subst h
    exact ⟨by simp [masm.Inc], Or.inr (osi_inc_err _)⟩
  · exact absurd h (by simp)
  · injection h with h; injection h with h
    subst h
    exact ⟨by simp [masm.Dec], Or.inr (osi_dec_err _)⟩
  · injection h with h; injection h with h
    subst h
    have hop : i.op = "add" := by simpa [Ins.wf, h3] using hwf
    exact ⟨by simp [hop], Or.inl (by simp [optimize_single_ins, h1, h3, h4, h5, h6])⟩
  · injection h with h; injection h with h
    subst h
    exact ⟨by simp [masm.Dec], Or.inr (osi_dec_err _)⟩
  · exact absurd h (by simp)
  · injection h with h; injection h with h
    subst h
    exact ⟨by simp [masm.Inc], Or.inr (osi_inc_err _)⟩
  · injection h with h; injection h with h
    subst h
    have hop : i.op = "sub" := by simpa [Ins.wf, h7] using hwf
    exact ⟨by simp [hop], Or.inl (by simp [optimize_single_ins, h1, h3, h7, h8, h9, h10])⟩

/-- `combine` only moves existing instructions around or inserts movs,
so it preserves "every element is constructible". -/
theorem mem_combine_wf (optimized : List Ins) (pushes pops : Nat)
    (hacc : ∀ i ∈ optimized, i.wf = true) :
    ∀ j ∈ combine optimized pushes pops, j.wf = true := by
  intro j hj
  unfold combine at hj
  simp only [List.mem_append, List.mem_filterMap, List.mem_range] at hj
  rcases hj with (hj | ⟨a, _, ha⟩) | hj
  · exact hacc j (List.take_subset _ _ hj)
  · split at ha
    · injection ha with ha
      subst ha
      simp [Ins.wf, masm.Mov]
    · exact absurd ha (by simp)
  · exact hacc j (List.drop_subset _ _ hj)

/-- The pass-1 loop preserves constructibility of every element. -/
theorem oppLoop_wf (rest : List Ins) :
    ∀ (optimized : List Ins) (st : OptState) (pushes pops : Nat),
    (∀ i ∈ rest, i.wf = true) → (∀ i ∈ optimized, i.wf = true) →
    ∀ j ∈ oppLoop rest optimized st pushes pops, j.wf = true := by
  induction rest with
  | nil =>
    intro optimized st pushes pops _ hacc j hj
    simp only [oppLoop] at hj
    split at hj
    · exact mem_combine_wf _ _ _ hacc j hj
    · exact hacc j hj
  | cons ins rest ih =>
    intro optimized st pushes pops hrest hacc j hj
    have hins : ins.wf = true := hrest ins (by simp)
    have hrest' : ∀ i ∈ rest, i.wf = true := fun i hi => hrest i (by simp [hi])
    have hacc' : ∀ i ∈ optimized ++ [ins], i.wf = true := by
      intro i hi
      rcases List.mem_append.mp hi with hl | hl
      · exact hacc i hl
      · simp only [List.mem_singleton] at hl
        subst hl
        exact hins
    have hcomb : ∀ i ∈ combine optimized pushes pops ++ [ins], i.wf = true := by
      intro i hi
      rcases List.mem_append.mp hi with hl | hl
      · exact mem_combine_wf _ _ _ hacc i hl
      · simp only [List.mem_singleton] at hl
        subst hl
        exact hins
    simp only [oppLoop] at hj
    split at hj
    · split at hj
      · exact ih _ _ _ _ hrest' hacc' j hj
      · exact ih _ _ _ _ hrest' hacc' j hj
    · split at hj
      · exact ih _ _ _ _ hrest' hacc' j hj
      · split at hj
        · exact ih _ _ _ _ hrest' hacc' j hj
        · exact ih _ _ _ _ hrest' hacc' j hj
    · split at hj
      · exact ih _ _ _ _ hrest' hacc' j hj
      · split at hj
        · exact ih _ _ _ _ hrest' hcomb j hj
        · exact ih _ _ _ _ hrest' hcomb j hj

/-- Every element of a successful pass-2 output is the image of some
input instruction under `optimize_single_ins`. -/
theorem osibatch_sources (m : List Ins) :
    ∀ (l : List Ins), optimize_single_ins_of_batch m = .ok l →
    ∀ j ∈ l, ∃ i ∈ m, optimize_single_ins i = .ok (some j) := by
  induction m with
  | nil =>
    intro l h j hj
    simp only [optimize_single_ins_of_batch] at h
    injection h with h
    subst h
    simp at hj
  | cons i t ih =>
    intro l h j hj
    simp only [optimize_single_ins_of_batch] at h
    cases hoi : optimize_single_ins i with
    | error e => rw [hoi] at h; cases h
    | ok o =>
      rw [hoi] at h
      cases o with
      | none =>
        rcases ih l h j hj with ⟨x, hx, hox⟩
        exact ⟨x, by simp [hx], hox⟩
      | some k =>
        cases ht : optimize_single_ins_of_batch t with
        | error e => rw [ht] at h; cases h
        | ok l2 =>
          rw [ht] at h
          injection h with h
          subst h
          rcases List.mem_cons.mp hj with hj | hj
          · subst hj
            exact ⟨i, by simp, hoi⟩
          · rcases ih l2 ht j hj with ⟨x, hx, hox⟩
            exact ⟨x, by simp [hx], hox⟩

/-- On a batch with no pushes, pass 1's loop never leaves the default
state and returns its input unchanged. -/
theorem oppLoop_no_push (l : List Ins) :
    ∀ (optimized : List Ins), (∀ i ∈ l, i.op ≠ "push") →
    oppLoop l optimized .state_default 0 0 = optimized ++ l := by
  induction l with
  | nil =>
    intro optimized _
    simp [oppLoop]
  | cons i t ih =>
    intro optimized h
    have hi : i.op ≠ "push" := h i (by simp)
    simp only [oppLoop]
    rw [if_neg hi, ih (optimized ++ [i]) (fun x hx => h x (by simp [hx]))]
    simp

/-- Pass 2 returns a batch of its own fixpoints unchanged (when it
returns at all). -/
theorem osibatch_stable (l : List Ins) :
    ∀ (l' : List Ins),
    (∀ j ∈ l, optimize_single_ins j = .ok (some j) ∨
      optimize_single_ins j = .error imulAttrError) →
    optimize_single_ins_of_batch l = .ok l' → l' = l := by
  induction l with
  | nil =>
    intro l' _ h
    simp only [optimize_single_ins_of_batch] at h
    injection h with h
    exact h.symm
  | cons j t ih =>
    intro l' hst h
    simp only [optimize_single_ins_of_batch] at h
    rcases hst j (by simp) with hj | hj
    · rw [hj] at h
      cases ht : optimize_single_ins_of_batch t with
      | error e => rw [ht] at h; cases h
      | ok l2 =>
        rw [ht] at h
        injection h with h
        subst h
        rw [ih l2 (fun x hx => hst x (by simp [hx])) ht]
    · rw [hj] at h
      cases h

/-- C3 (amended): the full optimizer is not idempotent (see the
counterexample), but whenever running `optimize_batch` on constructible
instructions succeeds and running it again on the result also succeeds
(rather than raising the `masm.Imul` `AttributeError`), the second run
returns the first run's output unchanged. -/
theorem c3_idempotent_when_second_run_succeeds (b l l' : List Ins)
    (hwf : ∀ i ∈ b, i.wf = true)
    (h1 : optimize_batch b = Except.ok l)
    (h2 : optimize_batch l = Except.ok l') : l' = l := by
  unfold optimize_batch at h1 h2
  have hm : ∀ i ∈ optimize_pushes_pops b, i.wf = true :=
    oppLoop_wf b [] .state_default 0 0 hwf (by simp)
  have hstep : ∀ j ∈ l, j.op ≠ "push" ∧
      (optimize_single_ins j = .ok (some j) ∨
        optimize_single_ins j = .error imulAttrError) := by
    intro j hj
    rcases osibatch_sources _ _ h1 j hj with ⟨i, hi, hoi⟩
    exact osi_step i j (hm i hi) hoi
  have hp1 : optimize_pushes_pops l = l := by
    unfold optimize_pushes_pops
    simpa using oppLoop_no_push l [] (fun i hi => (hstep i hi).1)
  rw [hp1] at h2
  exact osibatch_stable l l' (fun j hj => (hstep j hj).2) h2

/-- C3 (witness): the amended statement at a concrete batch on which
both runs succeed. -/
theorem c3_idempotent_witness :
    ([masm.Mov (Arg.str "ax") (Arg.str "bx")] : List Ins)
      = [masm.Mov (Arg.str "ax") (Arg.str "bx")] :=
  c3_idempotent_when_second_run_succeeds
    [masm.Mov (Arg.str "ax") (Arg.str "bx")]
    [masm.Mov (Arg.str "ax") (Arg.str "bx")]
    [masm.Mov (Arg.str "ax") (Arg.str "bx")]
    (by decide) (by decide) (by decide)
